import Mathlib

/-!
Inbound SMS webhook: authorization and dispatch.

A shallow embedding of `handlers.InboundSMSRequest` (src/handlers/handlers.go)
together with the library calls it makes (`os.Getenv`, `strings.Split` with the
separator `","`, `gin.Context.PostForm`, `gin.Context.JSON`) and the external
collaborator `process.Process`, which is a parameter of the handler.

The handler is modelled as a function from its inputs (the process environment
at request time and the request's form) to the ordered list of the calls it
makes plus the way its execution ends.
-/

namespace Handlers

/-! ## Data model -/

/-- A Go string is an immutable sequence of bytes. -/
abbrev GoString := List UInt8

/-- The bytes of a string literal of the source (Go source text is UTF-8). -/
def lit (s : String) : GoString := s.toUTF8.data.toList

/-- The byte of the separator literal `","` of line 17. -/
def comma : UInt8 := 44

/-- The process environment: the `key=value` pairs that `os.Getenv` searches. -/
abbrev Environ := List (GoString × GoString)

/-- Go `os.Getenv`: the value of the variable named `key`, which is empty when
the variable is not present. -/
def Getenv (env : Environ) (key : GoString) : GoString :=
  match env.lookup key with
  | some v => v
  | none => []

/-- Go `strings.Split(s, sep)` for a one-byte separator, the only kind the
handler passes: all the substrings of `s` between occurrences of `sep`. A string
without the separator (the empty string included) gives the one-element slice
holding `s`. -/
def Split : GoString → UInt8 → List GoString
  | [], _ => [[]]
  | b :: rest, sep =>
    if b = sep then [] :: Split rest sep
    else
      match Split rest sep with
      | [] => [[b]]
      | x :: xs => (b :: x) :: xs

/-- The part of `gin.Context` the handler reads: the request's POST form, each
key with its first value. -/
structure Context where
  form : List (GoString × GoString)
  deriving DecidableEq

/-- Gin `c.PostForm(key)`: the form value of `key` when it exists, otherwise the
empty string. -/
def Context.PostForm (c : Context) (key : GoString) : GoString :=
  match c.form.lookup key with
  | some v => v
  | none => []

/-- Gin `gin.H`, here always a JSON object with string values. -/
abbrev H := List (GoString × GoString)

/-- How a Go call ends: it returns, it panics, or it never returns. -/
inductive Outcome where
  | returned
  | panicked
  | diverged
  deriving DecidableEq, Repr

/-- The calls the handler makes, in program order. -/
inductive Event where
  | Getenv (key : GoString)
  | PostForm (key : GoString)
  | JSON (code : Nat) (obj : H)
  | Process (body : GoString)
  deriving DecidableEq, Repr

/-- One execution of the handler: the calls made, in order, and how it ended. -/
structure Run where
  trace : List Event
  outcome : Outcome
  deriving DecidableEq, Repr

/-! ## The handler -/

/-- The body `gin.H{"error": "Phone number is not authorized"}` of line 27. -/
def errorBody : H := [(lit "error", lit "Phone number is not authorized")]

/-- The body `gin.H{"status": "Message is being processed!"}` of line 34. -/
def statusBody : H := [(lit "status", lit "Message is being processed!")]

/-- The `for _, phone := range authenticatedDevices` loop of lines 20-24, on the
pair of the variable `authenticated` and the calls made so far. Every iteration
evaluates `c.PostForm("From")` and sets `authenticated` on equality; the loop has
no `break`. -/
def rangeLoop (c : Context) : List GoString → Bool × List Event → Bool × List Event
  | [], st => st
  | phone :: rest, (authenticated, tr) =>
    rangeLoop c rest
      (if phone = c.PostForm (lit "From") then true else authenticated,
       tr ++ [Event.PostForm (lit "From")])

/-- Lines 17-24 of `InboundSMSRequest`: the value of `authenticated` when the
loop is over, with the calls made up to there. -/
def checkInbound (env : Environ) (c : Context) : Bool × List Event :=
  let authenticatedDevices := Split (Getenv env (lit "PHONES")) comma
  rangeLoop c authenticatedDevices (false, [Event.Getenv (lit "PHONES")])

/-- The value of the local variable `authenticated` at line 26. -/
def authenticated (env : Environ) (c : Context) : Bool :=
  (checkInbound env c).1

/-- Go `InboundSMSRequest(c)`, run in the environment `env`, with
`process.Process` given by the way each of its calls ends. The call of line 39 is
an ordinary (synchronous) call statement, so the handler ends the way that call
ends. -/
def InboundSMSRequest (Process : GoString → Outcome) (env : Environ) (c : Context) : Run :=
  let st := checkInbound env c
  if !st.1 then
    { trace := st.2 ++ [Event.JSON 401 errorBody], outcome := Outcome.returned }
  else
    let body := c.PostForm (lit "Body")
    { trace := st.2 ++ [Event.JSON 200 statusBody, Event.PostForm (lit "Body"),
        Event.Process body],
      outcome := Process body }

/-- The calls of lines 17-24: one `os.Getenv`, then one `c.PostForm("From")`
for each entry of the split list. -/
def decisionReads (env : Environ) : List Event :=
  Event.Getenv (lit "PHONES") ::
    List.replicate (Split (Getenv env (lit "PHONES")) comma).length
      (Event.PostForm (lit "From"))

/-! ## Observations on a run -/

/-- The responses emitted in a trace: status code and body of each `c.JSON`. -/
def responses : List Event → List (Nat × H)
  | [] => []
  | Event.JSON code obj :: rest => (code, obj) :: responses rest
  | _ :: rest => responses rest

/-- The arguments of the `process.Process` calls of a trace, in order. -/
def processCalls : List Event → List GoString
  | [] => []
  | Event.Process body :: rest => body :: processCalls rest
  | _ :: rest => processCalls rest

/-- An event that reads an input of the authorization decision. -/
def isDecisionRead : Event → Bool
  | Event.Getenv _ => true
  | Event.PostForm key => key == lit "From"
  | _ => false

/-- An event that is a `c.JSON` response. -/
def isResponse : Event → Bool
  | Event.JSON _ _ => true
  | _ => false

/-- An event that is a `process.Process` call. -/
def isProcess : Event → Bool
  | Event.Process _ => true
  | _ => false

/-! ## The comma-separated list, in the words of the specification -/

/-- Joins the entries with the separator byte between them. -/
def joinWith (sep : UInt8) : List GoString → GoString
  | [] => []
  | [e] => e
  | e :: rest => e ++ sep :: joinWith sep rest

/-- The list `es` is the comma-separated list written in `s`: it has at least
one entry, no entry contains a comma, and the entries joined by commas
are `s`. -/
def IsCommaSeparatedList (es : List GoString) (s : GoString) : Prop :=
  es ≠ [] ∧ (∀ e ∈ es, comma ∉ e) ∧ joinWith comma es = s

/-- The string has an empty segment between commas: it is empty, starts with a
comma, ends with a comma, or has two adjacent commas. -/
def HasEmptySegment (s : GoString) : Prop :=
  s = [] ∨ s.head? = some comma ∨ s.getLast? = some comma ∨ [comma, comma] <:+: s

/-- The environment that holds just `PHONES=value`. -/
def phonesEnv (value : String) : Environ := [(lit "PHONES", lit value)]

/-- The request with the form fields `From` and `Body`. -/
def smsRequest (sender body : String) : Context :=
  { form := [(lit "From", lit sender), (lit "Body", lit body)] }

/-! ## Lemmas on `Split` -/

/-- The separator literal `","` of line 17 is the single byte `comma`. -/
theorem lit_comma : lit "," = [comma] := by decide

theorem Split_ne_nil (s : GoString) (sep : UInt8) : Split s sep ≠ [] := by
  cases s with
  | nil => simp [Split]
  | cons b rest =>
    unfold Split
    split
    · simp
    · split <;> simp

theorem Split_cons_sep (rest : GoString) (sep : UInt8) :
    Split (sep :: rest) sep = [] :: Split rest sep := by
  simp [Split]

theorem Split_cons_ne (b : UInt8) (rest : GoString) (sep : UInt8) (h : b ≠ sep) :
    Split (b :: rest) sep =
      (b :: (Split rest sep).headI) :: (Split rest sep).tail := by
  have hne := Split_ne_nil rest sep
  rw [Split, if_neg h]
  cases hs : Split rest sep with
  | nil => exact absurd hs hne
  | cons x xs => rfl

theorem Split_no_sep (s : GoString) (sep : UInt8) : ∀ e ∈ Split s sep, sep ∉ e := by
  induction s with
  | nil => simp [Split]
  | cons b rest ih =>
    by_cases h : b = sep
    · subst h
      rw [Split_cons_sep]
      intro e he
      rcases List.mem_cons.1 he with rfl | he
      · simp
      · exact ih e he
    · rw [Split_cons_ne b rest sep h]
      have hne := Split_ne_nil rest sep
      cases hs : Split rest sep with
      | nil => exact absurd hs hne
      | cons x xs =>
        rw [hs] at ih
        intro e he
        simp only [List.headI, List.tail] at he
        rcases List.mem_cons.1 he with rfl | he
        · intro hmem
          rcases List.mem_cons.1 hmem with heq | hmem
          · exact h heq.symm
          · exact ih x (List.mem_cons_self _ _) hmem
        · exact ih e (List.mem_cons_of_mem _ he)

theorem joinWith_cons_of_ne_nil (sep : UInt8) (e : GoString) (rest : List GoString)
    (h : rest ≠ []) : joinWith sep (e :: rest) = e ++ sep :: joinWith sep rest := by
  cases rest with
  | nil => exact absurd rfl h
  | cons x xs => rfl

theorem joinWith_Split (s : GoString) (sep : UInt8) : joinWith sep (Split s sep) = s := by
  induction s with
  | nil => simp [Split, joinWith]
  | cons b rest ih =>
    have hne := Split_ne_nil rest sep
    by_cases h : b = sep
    · subst h
      rw [Split_cons_sep, joinWith_cons_of_ne_nil _ _ _ hne, ih]
      rfl
    · rw [Split_cons_ne b rest sep h]
      cases hs : Split rest sep with
      | nil => exact absurd hs hne
      | cons x xs =>
        rw [hs] at ih
        simp only [List.headI, List.tail]
        cases xs with
        | nil =>
          simp only [joinWith] at ih ⊢
          rw [ih]
        | cons y ys =>
          simp only [joinWith] at ih ⊢
          rw [← ih]
          rfl

theorem Split_of_not_mem (e : GoString) (sep : UInt8) (h : sep ∉ e) : Split e sep = [e] := by
  induction e with
  | nil => rfl
  | cons b rest ih =>
    have hb : b ≠ sep := fun hb => h (hb ▸ List.mem_cons_self _ _)
    have hr : sep ∉ rest := fun hr => h (List.mem_cons_of_mem _ hr)
    rw [Split_cons_ne b rest sep hb, ih hr]
    rfl

theorem Split_append_sep (e r : GoString) (sep : UInt8) (h : sep ∉ e) :
    Split (e ++ sep :: r) sep = e :: Split r sep := by
  induction e with
  | nil => exact Split_cons_sep r sep
  | cons b rest ih =>
    have hb : b ≠ sep := fun hb => h (hb ▸ List.mem_cons_self _ _)
    have hr : sep ∉ rest := fun hr => h (List.mem_cons_of_mem _ hr)
    rw [List.cons_append, Split_cons_ne b _ sep hb, ih hr]
    rfl

/-- The split is the only list of separator-free entries that joins to `s`. -/
theorem Split_joinWith (sep : UInt8) (es : List GoString) (hne : es ≠ [])
    (hsep : ∀ e ∈ es, sep ∉ e) : Split (joinWith sep es) sep = es := by
  induction es with
  | nil => exact absurd rfl hne
  | cons e rest ih =>
    have he : sep ∉ e := hsep e (List.mem_cons_self _ _)
    cases rest with
    | nil => exact Split_of_not_mem e sep he
    | cons x xs =>
      have hrest : ∀ e ∈ x :: xs, sep ∉ e := fun e' h' => hsep e' (List.mem_cons_of_mem _ h')
      rw [joinWith_cons_of_ne_nil sep e (x :: xs) (by simp), Split_append_sep e _ sep he,
        ih (by simp) hrest]

theorem Split_eq_of_isCommaSeparatedList (es : List GoString) (s : GoString)
    (h : IsCommaSeparatedList es s) : Split s comma = es := by
  obtain ⟨hne, hsep, hjoin⟩ := h
  rw [← hjoin]
  exact Split_joinWith comma es hne hsep

theorem isCommaSeparatedList_Split (s : GoString) : IsCommaSeparatedList (Split s comma) s :=
  ⟨Split_ne_nil s comma, Split_no_sep s comma, joinWith_Split s comma⟩

/-! ## Lemmas on the empty segment -/

theorem nil_mem_tail_Split_iff (s : GoString) (sep : UInt8) :
    ([] ∈ (Split s sep).tail ↔ s.getLast? = some sep ∨ [sep, sep] <:+: s) ∧
    ([] ∈ Split s sep ↔
      s = [] ∨ s.head? = some sep ∨ s.getLast? = some sep ∨ [sep, sep] <:+: s) := by
  induction s with
  | nil => simp [Split]
  | cons b rest ih =>
    obtain ⟨ihT, ihA⟩ := ih
    by_cases h : b = sep
    · subst h
      have hT : [] ∈ (Split (b :: rest) b).tail ↔
          (b :: rest).getLast? = some b ∨ [b, b] <:+: b :: rest := by
        rw [Split_cons_sep, List.tail_cons, ihA, List.infix_cons_iff]
        cases rest with
        | nil => simp
        | cons x xs =>
          simp only [List.getLast?_cons_cons, List.head?_cons, List.cons_prefix_cons,
            List.nil_prefix, Option.some.injEq, reduceCtorEq, false_or, true_and, and_true]
          constructor
          · rintro (h1 | h2 | h3)
            · exact Or.inr (Or.inl h1.symm)
            · exact Or.inl h2
            · exact Or.inr (Or.inr h3)
          · rintro (h1 | h2 | h3)
            · exact Or.inr (Or.inl h1)
            · exact Or.inl h2.symm
            · exact Or.inr (Or.inr h3)
      refine ⟨hT, ?_⟩
      rw [Split_cons_sep]
      simp
    · have hT : [] ∈ (Split (b :: rest) sep).tail ↔
          (b :: rest).getLast? = some sep ∨ [sep, sep] <:+: b :: rest := by
        rw [Split_cons_ne b rest sep h, List.tail_cons, ihT, List.infix_cons_iff]
        cases rest with
        | nil => simp [h]
        | cons x xs =>
          simp only [List.getLast?_cons_cons, List.cons_prefix_cons]
          constructor
          · rintro (h1 | h2)
            · exact Or.inl h1
            · exact Or.inr (Or.inr h2)
          · rintro (h1 | h2 | h3)
            · exact Or.inl h1
            · exact absurd h2.1.symm h
            · exact Or.inr h3
      refine ⟨hT, ?_⟩
      have hmem : [] ∈ Split (b :: rest) sep ↔ [] ∈ (Split (b :: rest) sep).tail := by
        rw [Split_cons_ne b rest sep h]
        simp
      rw [hmem, hT]
      have hb : ¬ (some b = some sep) := fun hb => h (Option.some.inj hb)
      simp [hb]

theorem nil_mem_Split_iff (s : GoString) : [] ∈ Split s comma ↔ HasEmptySegment s :=
  (nil_mem_tail_Split_iff s comma).2

/-! ## Lemmas on the handler -/

theorem rangeLoop_fst (c : Context) (l : List GoString) (a : Bool) (tr : List Event) :
    (rangeLoop c l (a, tr)).1 = (a || decide (c.PostForm (lit "From") ∈ l)) := by
  induction l generalizing a tr with
  | nil => simp [rangeLoop]
  | cons phone rest ih =>
    rw [rangeLoop, ih]
    by_cases h : phone = c.PostForm (lit "From")
    · simp [h]
    · have h2 : ¬ (c.PostForm (lit "From") = phone) := fun h2 => h h2.symm
      simp [h, h2]

theorem rangeLoop_snd (c : Context) (l : List GoString) (a : Bool) (tr : List Event) :
    (rangeLoop c l (a, tr)).2 =
      tr ++ List.replicate l.length (Event.PostForm (lit "From")) := by
  induction l generalizing a tr with
  | nil => simp [rangeLoop]
  | cons phone rest ih =>
    rw [rangeLoop, ih, List.length_cons, List.replicate_succ, List.append_assoc]
    rfl

theorem authenticated_iff (env : Environ) (c : Context) :
    authenticated env c = true ↔
      c.PostForm (lit "From") ∈ Split (Getenv env (lit "PHONES")) comma := by
  simp [authenticated, checkInbound, rangeLoop_fst]

theorem checkInbound_snd (env : Environ) (c : Context) :
    (checkInbound env c).2 = decisionReads env := by
  simp [checkInbound, rangeLoop_snd, decisionReads]

theorem decisionReads_all (env : Environ) :
    ∀ e ∈ decisionReads env, isDecisionRead e = true := by
  intro e he
  rcases List.mem_cons.1 he with rfl | he
  · rfl
  · rw [List.eq_of_mem_replicate he]
    simp [isDecisionRead]

theorem InboundSMSRequest_rejected (Process : GoString → Outcome) (env : Environ)
    (c : Context) (h : authenticated env c = false) :
    InboundSMSRequest Process env c =
      { trace := decisionReads env ++ [Event.JSON 401 errorBody],
        outcome := Outcome.returned } := by
  unfold authenticated at h
  simp [InboundSMSRequest, h, checkInbound_snd]

theorem InboundSMSRequest_accepted (Process : GoString → Outcome) (env : Environ)
    (c : Context) (h : authenticated env c = true) :
    InboundSMSRequest Process env c =
      { trace := decisionReads env ++ [Event.JSON 200 statusBody,
          Event.PostForm (lit "Body"), Event.Process (c.PostForm (lit "Body"))],
        outcome := Process (c.PostForm (lit "Body")) } := by
  unfold authenticated at h
  simp [InboundSMSRequest, h, checkInbound_snd]

theorem responses_reads (l rest : List Event) (h : ∀ e ∈ l, isDecisionRead e = true) :
    responses (l ++ rest) = responses rest := by
  induction l with
  | nil => rfl
  | cons e l ih =>
    have he := h e (List.mem_cons_self _ _)
    have hl : ∀ e ∈ l, isDecisionRead e = true := fun e' h' => h e' (List.mem_cons_of_mem _ h')
    cases e with
    | JSON code obj => simp [isDecisionRead] at he
    | Getenv key => simpa [responses] using ih hl
    | PostForm key => simpa [responses] using ih hl
    | Process body => simp [isDecisionRead] at he

theorem processCalls_reads (l rest : List Event) (h : ∀ e ∈ l, isDecisionRead e = true) :
    processCalls (l ++ rest) = processCalls rest := by
  induction l with
  | nil => rfl
  | cons e l ih =>
    have he := h e (List.mem_cons_self _ _)
    have hl : ∀ e ∈ l, isDecisionRead e = true := fun e' h' => h e' (List.mem_cons_of_mem _ h')
    cases e with
    | JSON code obj => simp [isDecisionRead] at he
    | Getenv key => simpa [processCalls] using ih hl
    | PostForm key => simpa [processCalls] using ih hl
    | Process body => simp [isDecisionRead] at he

theorem responses_rejected (Process : GoString → Outcome) (env : Environ) (c : Context)
    (h : authenticated env c = false) :
    responses (InboundSMSRequest Process env c).trace = [(401, errorBody)] ∧
      processCalls (InboundSMSRequest Process env c).trace = [] := by
  rw [InboundSMSRequest_rejected Process env c h]
  exact ⟨responses_reads _ _ (decisionReads_all env), processCalls_reads _ _ (decisionReads_all env)⟩

theorem responses_accepted (Process : GoString → Outcome) (env : Environ) (c : Context)
    (h : authenticated env c = true) :
    responses (InboundSMSRequest Process env c).trace = [(200, statusBody)] ∧
      processCalls (InboundSMSRequest Process env c).trace = [c.PostForm (lit "Body")] := by
  rw [InboundSMSRequest_accepted Process env c h]
  exact ⟨responses_reads _ _ (decisionReads_all env), processCalls_reads _ _ (decisionReads_all env)⟩

theorem authenticated_eq_false_iff (env : Environ) (c : Context) :
    authenticated env c = false ↔
      c.PostForm (lit "From") ∉ Split (Getenv env (lit "PHONES")) comma := by
  rw [← authenticated_iff]
  simp

theorem append_cons_unique {α : Type} (p : α → Prop) (l r : List α) (a b : α)
    (hl : ∀ e ∈ l, ¬ p e) (hr : ∀ e ∈ r, ¬ p e) (hb : p b) :
    ∀ pre post : List α, l ++ a :: r = pre ++ b :: post → pre = l ∧ b = a ∧ post = r := by
  induction l with
  | nil =>
    intro pre post h
    cases pre with
    | nil =>
      simp only [List.nil_append, List.cons.injEq] at h
      exact ⟨rfl, h.1.symm, h.2.symm⟩
    | cons x xs =>
      simp only [List.nil_append, List.cons_append, List.cons.injEq] at h
      exact absurd hb (hr b (by rw [h.2]; simp))
  | cons x l ih =>
    intro pre post h
    have hl2 : ∀ e ∈ l, ¬ p e := fun e he => hl e (List.mem_cons_of_mem _ he)
    cases pre with
    | nil =>
      simp only [List.nil_append, List.cons_append, List.cons.injEq] at h
      exact absurd (h.1 ▸ hb) (hl x (List.mem_cons_self _ _))
    | cons y ys =>
      simp only [List.cons_append, List.cons.injEq] at h
      obtain ⟨h1, h2, h3⟩ := ih hl2 ys post h.2
      exact ⟨by rw [h.1, h1], h2, h3⟩

theorem processCalls_append_cons_ne_nil (pre post : List Event) (body : GoString) :
    processCalls (pre ++ Event.Process body :: post) ≠ [] := by
  induction pre with
  | nil => simp [processCalls]
  | cons e pre ih => cases e <;> simp [processCalls, ih]

theorem reads_not_response (env : Environ) : ∀ e ∈ decisionReads env, ¬ isResponse e = true := by
  intro e he
  have h := decisionReads_all env e he
  cases e <;> simp_all [isDecisionRead, isResponse]

theorem reads_not_process (env : Environ) : ∀ e ∈ decisionReads env, ¬ isProcess e = true := by
  intro e he
  have h := decisionReads_all env e he
  cases e <;> simp_all [isDecisionRead, isProcess]

/-! ## Claims -/

/-- C1: whatever the value of PHONES and the request, the handler authorizes the
request exactly when the sender (the form field From) is equal, byte for byte, to
an entry of the comma-separated list written in PHONES: the variable
`authenticated` is true, and the response is the 200 one, exactly in that case,
and the response is the 401 one exactly otherwise. -/
theorem C1_authorized_iff_sender_is_entry (Process : GoString → Outcome) (env : Environ)
    (c : Context) (es : List GoString)
    (h : IsCommaSeparatedList es (Getenv env (lit "PHONES"))) :
    (authenticated env c = true ↔ c.PostForm (lit "From") ∈ es) ∧
    (responses (InboundSMSRequest Process env c).trace = [(200, statusBody)] ↔
      c.PostForm (lit "From") ∈ es) ∧
    (responses (InboundSMSRequest Process env c).trace = [(401, errorBody)] ↔
      c.PostForm (lit "From") ∉ es) := by
  have hes := Split_eq_of_isCommaSeparatedList es _ h
  have hiff : authenticated env c = true ↔ c.PostForm (lit "From") ∈ es := by
    rw [authenticated_iff, hes]
  refine ⟨hiff, ?_, ?_⟩
  · constructor
    · intro hr
      by_contra hn
      have hf : authenticated env c = false := by
        rw [Bool.eq_false_iff]
        exact fun ht => hn (hiff.1 ht)
      rw [(responses_rejected Process env c hf).1] at hr
      simp at hr
    · intro hm
      exact (responses_accepted Process env c (hiff.2 hm)).1
  · constructor
    · intro hr hm
      rw [(responses_accepted Process env c (hiff.2 hm)).1] at hr
      simp at hr
    · intro hn
      have hf : authenticated env c = false := by
        rw [Bool.eq_false_iff]
        exact fun ht => hn (hiff.1 ht)
      exact (responses_rejected Process env c hf).1

/-- C1, the example of the claim: with PHONES="+15551234567, +15557654321" the
entries are "+15551234567" and " +15557654321" (leading space kept), and the
sender "+15557654321" gets the 401 response. -/
theorem C1_witness :
    IsCommaSeparatedList [lit "+15551234567", lit " +15557654321"]
        (Getenv (phonesEnv "+15551234567, +15557654321") (lit "PHONES")) ∧
      responses (InboundSMSRequest (fun _ => Outcome.returned)
        (phonesEnv "+15551234567, +15557654321")
        (smsRequest "+15557654321" "hi")).trace = [(401, errorBody)] :=
  have h : IsCommaSeparatedList [lit "+15551234567", lit " +15557654321"]
      (Getenv (phonesEnv "+15551234567, +15557654321") (lit "PHONES")) :=
    ⟨by decide, by decide, by decide⟩
  ⟨h, (C1_authorized_iff_sender_is_entry (fun _ => Outcome.returned)
    (phonesEnv "+15551234567, +15557654321") (smsRequest "+15557654321" "hi")
    [lit "+15551234567", lit " +15557654321"] h).2.2.2 (by decide)⟩

/-- C2: when the sender is not an entry of the list split from PHONES, the
handler emits exactly one response, with status 401 and the body
{"error": "Phone number is not authorized"}, makes no call of Process, and
returns. -/
theorem C2_unauthorized_gets_401 (Process : GoString → Outcome) (env : Environ)
    (c : Context)
    (h : c.PostForm (lit "From") ∉ Split (Getenv env (lit "PHONES")) comma) :
    responses (InboundSMSRequest Process env c).trace = [(401, errorBody)] ∧
      processCalls (InboundSMSRequest Process env c).trace = [] ∧
      (InboundSMSRequest Process env c).outcome = Outcome.returned := by
  have hf := (authenticated_eq_false_iff env c).2 h
  refine ⟨(responses_rejected Process env c hf).1, (responses_rejected Process env c hf).2, ?_⟩
  rw [InboundSMSRequest_rejected Process env c hf]

/-- C2, the scenario of the claim: list "+15551234567", "+15557654321",
From="+19998887777", Body="hi". -/
theorem C2_witness :
    (smsRequest "+19998887777" "hi").PostForm (lit "From") ∉
        Split (Getenv (phonesEnv "+15551234567,+15557654321") (lit "PHONES")) comma ∧
      responses (InboundSMSRequest (fun _ => Outcome.returned)
        (phonesEnv "+15551234567,+15557654321")
        (smsRequest "+19998887777" "hi")).trace = [(401, errorBody)] ∧
      processCalls (InboundSMSRequest (fun _ => Outcome.returned)
        (phonesEnv "+15551234567,+15557654321")
        (smsRequest "+19998887777" "hi")).trace = [] :=
  have h := C2_unauthorized_gets_401 (fun _ => Outcome.returned)
    (phonesEnv "+15551234567,+15557654321") (smsRequest "+19998887777" "hi") (by decide)
  ⟨by decide, h.1, h.2.1⟩

/-- C3: when the sender is an entry of the list split from PHONES, the handler
emits exactly one response, with status 200 and the body
{"status": "Message is being processed!"}, and calls Process exactly once, with
the form field Body as its argument. -/
theorem C3_authorized_gets_200_and_one_Process (Process : GoString → Outcome)
    (env : Environ) (c : Context)
    (h : c.PostForm (lit "From") ∈ Split (Getenv env (lit "PHONES")) comma) :
    responses (InboundSMSRequest Process env c).trace = [(200, statusBody)] ∧
      processCalls (InboundSMSRequest Process env c).trace = [c.PostForm (lit "Body")] :=
  responses_accepted Process env c ((authenticated_iff env c).2 h)

/-- C3, the scenario of the claim: list "+15551234567", "+15557654321",
From="+15551234567", Body="hello" gives status 200 and the one call
Process("hello"). -/
theorem C3_witness :
    (smsRequest "+15551234567" "hello").PostForm (lit "From") ∈
        Split (Getenv (phonesEnv "+15551234567,+15557654321") (lit "PHONES")) comma ∧
      responses (InboundSMSRequest (fun _ => Outcome.returned)
        (phonesEnv "+15551234567,+15557654321")
        (smsRequest "+15551234567" "hello")).trace = [(200, statusBody)] ∧
      processCalls (InboundSMSRequest (fun _ => Outcome.returned)
        (phonesEnv "+15551234567,+15557654321")
        (smsRequest "+15551234567" "hello")).trace = [lit "hello"] :=
  have h := C3_authorized_gets_200_and_one_Process (fun _ => Outcome.returned)
    (phonesEnv "+15551234567,+15557654321") (smsRequest "+15551234567" "hello") (by decide)
  ⟨by decide, h.1, h.2⟩

/-- C4: the handler evaluated with PHONES absent, and with PHONES empty, on a
request whose From field is missing, and on one whose From field is empty: the
split list is the one-entry list holding the empty string, the response is the
200 one and Process is called with the body. -/
theorem C4_empty_PHONES_accepts_empty_sender :
    Split (Getenv [] (lit "PHONES")) comma = [[]] ∧
    Split (Getenv (phonesEnv "") (lit "PHONES")) comma = [[]] ∧
    responses (InboundSMSRequest (fun _ => Outcome.returned) []
      { form := [(lit "Body", lit "hi")] }).trace = [(200, statusBody)] ∧
    processCalls (InboundSMSRequest (fun _ => Outcome.returned) []
      { form := [(lit "Body", lit "hi")] }).trace = [lit "hi"] ∧
    responses (InboundSMSRequest (fun _ => Outcome.returned) (phonesEnv "")
      (smsRequest "" "hi")).trace = [(200, statusBody)] ∧
    processCalls (InboundSMSRequest (fun _ => Outcome.returned) (phonesEnv "")
      (smsRequest "" "hi")).trace = [lit "hi"] := by
  decide

/-- C5: in every run, the trace is the reads of the authorization decision
(the os.Getenv call and the c.PostForm("From") calls of lines 17-24) followed
either, when `authenticated` is false, by the 401 response alone, or, when it is
true, by the 200 response, then the read of Body, then the Process call. So
everything before a response is a read of the decision, nothing after it is, the
200 response comes strictly before the Process call, and a trace with a 401
response has no Process call. -/
theorem C5_decision_then_response_then_Process (Process : GoString → Outcome)
    (env : Environ) (c : Context) :
    (∃ reads : List Event, (checkInbound env c).2 = reads ∧
      (∀ e ∈ reads, isDecisionRead e = true) ∧
      ((authenticated env c = false ∧
          (InboundSMSRequest Process env c).trace = reads ++ [Event.JSON 401 errorBody]) ∨
        (authenticated env c = true ∧
          (InboundSMSRequest Process env c).trace =
            reads ++ [Event.JSON 200 statusBody, Event.PostForm (lit "Body"),
              Event.Process (c.PostForm (lit "Body"))]))) ∧
    (∀ (pre post : List Event) (code : Nat) (obj : H),
      (InboundSMSRequest Process env c).trace = pre ++ Event.JSON code obj :: post →
        (∀ e ∈ pre, isDecisionRead e = true) ∧ (∀ e ∈ post, isDecisionRead e = false)) ∧
    (∀ (pre post : List Event) (body : GoString),
      (InboundSMSRequest Process env c).trace = pre ++ Event.Process body :: post →
        Event.JSON 200 statusBody ∈ pre) ∧
    (∀ obj : H, Event.JSON 401 obj ∈ (InboundSMSRequest Process env c).trace →
      processCalls (InboundSMSRequest Process env c).trace = []) := by
  have hall := decisionReads_all env
  cases hauth : authenticated env c with
  | false =>
    have htr := InboundSMSRequest_rejected Process env c hauth
    refine ⟨⟨decisionReads env, checkInbound_snd env c, hall, Or.inl ⟨rfl, by rw [htr]⟩⟩,
      ?_, ?_, ?_⟩
    · intro pre post code obj h
      rw [htr] at h
      obtain ⟨h1, _, h3⟩ := append_cons_unique (fun e => isResponse e = true)
        (decisionReads env) [] (Event.JSON 401 errorBody) (Event.JSON code obj)
        (reads_not_response env) (by simp) rfl pre post h
      subst h1 h3
      exact ⟨hall, by simp⟩
    · intro pre post body h
      have hp := (responses_rejected Process env c hauth).2
      rw [h] at hp
      exact absurd hp (processCalls_append_cons_ne_nil pre post body)
    · intro obj _
      exact (responses_rejected Process env c hauth).2
  | true =>
    have htr := InboundSMSRequest_accepted Process env c hauth
    refine ⟨⟨decisionReads env, checkInbound_snd env c, hall, Or.inr ⟨rfl, by rw [htr]⟩⟩,
      ?_, ?_, ?_⟩
    · intro pre post code obj h
      rw [htr] at h
      obtain ⟨h1, _, h3⟩ := append_cons_unique (fun e => isResponse e = true)
        (decisionReads env)
        [Event.PostForm (lit "Body"), Event.Process (c.PostForm (lit "Body"))]
        (Event.JSON 200 statusBody) (Event.JSON code obj)
        (reads_not_response env) (by simp [isResponse]) rfl pre post h
      subst h1 h3
      refine ⟨hall, ?_⟩
      intro e he
      simp only [List.mem_cons, List.mem_singleton, List.not_mem_nil, or_false] at he
      rcases he with rfl | rfl
      · simp only [isDecisionRead, beq_eq_false_iff_ne, ne_eq]
        decide
      · rfl
    · intro pre post body h
      rw [htr] at h
      have h2 : (decisionReads env ++ [Event.JSON 200 statusBody, Event.PostForm (lit "Body")]) ++
          Event.Process (c.PostForm (lit "Body")) :: [] = pre ++ Event.Process body :: post := by
        rw [← h]; simp
      obtain ⟨h1, _, _⟩ := append_cons_unique (fun e => isProcess e = true)
        (decisionReads env ++ [Event.JSON 200 statusBody, Event.PostForm (lit "Body")]) []
        (Event.Process (c.PostForm (lit "Body"))) (Event.Process body)
        (by
          intro e he
          rcases List.mem_append.1 he with he | he
          · exact reads_not_process env e he
          · simp only [List.mem_cons, List.mem_singleton, List.not_mem_nil, or_false] at he
            rcases he with rfl | rfl <;> simp [isProcess])
        (by simp) rfl pre post h2
      rw [h1]
      simp
    · intro obj hm
      rw [htr] at hm
      rcases List.mem_append.1 hm with hm | hm
      · exact absurd (hall _ hm) (by simp [isDecisionRead])
      · simp at hm

/-- C5 at the scenario request From="+15551234567", Body="hello": the trace
splits at its 200 response into the three reads of the decision before it and
the read of Body and the Process call after it. -/
theorem C5_witness :
    (InboundSMSRequest (fun _ => Outcome.returned) (phonesEnv "+15551234567,+15557654321")
        (smsRequest "+15551234567" "hello")).trace =
      [Event.Getenv (lit "PHONES"), Event.PostForm (lit "From"), Event.PostForm (lit "From")] ++
        Event.JSON 200 statusBody ::
          [Event.PostForm (lit "Body"), Event.Process (lit "hello")] ∧
    ((∀ e ∈ [Event.Getenv (lit "PHONES"), Event.PostForm (lit "From"),
        Event.PostForm (lit "From")], isDecisionRead e = true) ∧
      (∀ e ∈ [Event.PostForm (lit "Body"), Event.Process (lit "hello")],
        isDecisionRead e = false)) :=
  ⟨by decide, (C5_decision_then_response_then_Process (fun _ => Outcome.returned)
    (phonesEnv "+15551234567,+15557654321") (smsRequest "+15551234567" "hello")).2.1
    [Event.Getenv (lit "PHONES"), Event.PostForm (lit "From"), Event.PostForm (lit "From")]
    [Event.PostForm (lit "Body"), Event.Process (lit "hello")] 200 statusBody (by decide)⟩

/-- C6, as the claim states it, fails: for an authorized request whose Process
call never returns, the handler never returns either, and when the call panics
the handler panics; only when the call returns does the handler return. -/
theorem C6_counterexample :
    authenticated (phonesEnv "+15551234567,+15557654321")
        (smsRequest "+15551234567" "hello") = true ∧
      (InboundSMSRequest (fun _ => Outcome.diverged)
        (phonesEnv "+15551234567,+15557654321")
        (smsRequest "+15551234567" "hello")).outcome ≠ Outcome.returned ∧
      (InboundSMSRequest (fun _ => Outcome.panicked)
        (phonesEnv "+15551234567,+15557654321")
        (smsRequest "+15551234567" "hello")).outcome ≠ Outcome.returned ∧
      (InboundSMSRequest (fun _ => Outcome.returned)
        (phonesEnv "+15551234567,+15557654321")
        (smsRequest "+15551234567" "hello")).outcome = Outcome.returned := by
  decide

/-- C6, amended: for an authorized request the c.JSON call with status 200 is
made before Process is called, and the calls the handler makes are the same
whatever way Process ends; the Process call is synchronous, so the handler ends
exactly the way that call ends, and it returns if and only if Process
returns. -/
theorem C6_response_precedes_synchronous_Process (Process : GoString → Outcome)
    (env : Environ) (c : Context) (h : authenticated env c = true) :
    (∃ reads : List Event, (∀ e ∈ reads, isDecisionRead e = true) ∧
      ∀ P : GoString → Outcome, (InboundSMSRequest P env c).trace =
        reads ++ [Event.JSON 200 statusBody, Event.PostForm (lit "Body"),
          Event.Process (c.PostForm (lit "Body"))]) ∧
    (InboundSMSRequest Process env c).outcome = Process (c.PostForm (lit "Body")) ∧
    ((InboundSMSRequest Process env c).outcome = Outcome.returned ↔
      Process (c.PostForm (lit "Body")) = Outcome.returned) := by
  refine ⟨⟨decisionReads env, decisionReads_all env, fun P => ?_⟩, ?_, ?_⟩
  · rw [InboundSMSRequest_accepted P env c h]
  · rw [InboundSMSRequest_accepted Process env c h]
  · rw [InboundSMSRequest_accepted Process env c h]

/-- C6, amended, at the scenario request with a Process call that never
returns: the 200 response is emitted and the handler does not return. -/
theorem C6_witness :
    authenticated (phonesEnv "+15551234567,+15557654321")
        (smsRequest "+15551234567" "hello") = true ∧
      (InboundSMSRequest (fun _ => Outcome.diverged)
        (phonesEnv "+15551234567,+15557654321")
        (smsRequest "+15551234567" "hello")).outcome = Outcome.diverged :=
  ⟨by decide, (C6_response_precedes_synchronous_Process (fun _ => Outcome.diverged)
    (phonesEnv "+15551234567,+15557654321") (smsRequest "+15551234567" "hello")
    (by decide)).2.1⟩

/-- C7, as the claim states it, fails: the same request, with the same sender,
is authorized when PHONES holds the sender at request time and rejected once
PHONES has been changed to another value. -/
theorem C7_counterexample :
    authenticated (phonesEnv "+15551234567") (smsRequest "+15551234567" "hi") = true ∧
      authenticated (phonesEnv "+15557654321") (smsRequest "+15551234567" "hi") = false ∧
      responses (InboundSMSRequest (fun _ => Outcome.returned) (phonesEnv "+15551234567")
        (smsRequest "+15551234567" "hi")).trace = [(200, statusBody)] ∧
      responses (InboundSMSRequest (fun _ => Outcome.returned) (phonesEnv "+15557654321")
        (smsRequest "+15551234567" "hi")).trace = [(401, errorBody)] := by
  decide

/-- C7, amended: the handler reads PHONES with os.Getenv at each request, and
two requests with the same sender get the same authorization decision, and the
same responses, whenever PHONES has the same value at the two request times. -/
theorem C7_decision_depends_on_PHONES_at_request (Process : GoString → Outcome)
    (env₁ env₂ : Environ) (c₁ c₂ : Context)
    (hp : Getenv env₁ (lit "PHONES") = Getenv env₂ (lit "PHONES"))
    (hs : c₁.PostForm (lit "From") = c₂.PostForm (lit "From")) :
    (InboundSMSRequest Process env₁ c₁).trace.head? = some (Event.Getenv (lit "PHONES")) ∧
    authenticated env₁ c₁ = authenticated env₂ c₂ ∧
    responses (InboundSMSRequest Process env₁ c₁).trace =
      responses (InboundSMSRequest Process env₂ c₂).trace := by
  have hauth : authenticated env₁ c₁ = authenticated env₂ c₂ := by
    rw [Bool.eq_iff_iff, authenticated_iff, authenticated_iff, hp, hs]
  refine ⟨?_, hauth, ?_⟩
  · cases h1 : authenticated env₁ c₁ with
    | false => rw [InboundSMSRequest_rejected Process env₁ c₁ h1]; rfl
    | true => rw [InboundSMSRequest_accepted Process env₁ c₁ h1]; rfl
  · cases h1 : authenticated env₁ c₁ with
    | false =>
      rw [(responses_rejected Process env₁ c₁ h1).1,
        (responses_rejected Process env₂ c₂ (hauth ▸ h1)).1]
    | true =>
      rw [(responses_accepted Process env₁ c₁ h1).1,
        (responses_accepted Process env₂ c₂ (hauth ▸ h1)).1]

/-- C7, amended, at two environments that differ in another variable and hold
the same PHONES. -/
theorem C7_witness :
    Getenv (phonesEnv "+15551234567") (lit "PHONES") =
        Getenv ((lit "PORT", lit "8080") :: phonesEnv "+15551234567") (lit "PHONES") ∧
      authenticated (phonesEnv "+15551234567") (smsRequest "+15551234567" "hi") =
        authenticated ((lit "PORT", lit "8080") :: phonesEnv "+15551234567")
          (smsRequest "+15551234567" "hello") :=
  ⟨by decide, (C7_decision_depends_on_PHONES_at_request (fun _ => Outcome.returned)
    (phonesEnv "+15551234567") ((lit "PORT", lit "8080") :: phonesEnv "+15551234567")
    (smsRequest "+15551234567" "hi") (smsRequest "+15551234567" "hello")
    (by decide) (by decide)).2.1⟩

/-- C8: the list split from PHONES is never empty; a missing From field reads
as the empty sender; and a request with the empty sender is authorized by
InboundSMSRequest exactly when PHONES has an empty segment (PHONES is empty or
unset, starts with a comma, ends with a comma, or has two adjacent commas): in
that case, and only then, the variable `authenticated` is true, the handler
emits the 200 response and calls Process once with Body; otherwise, and only
then, it emits the 401 response and does not call Process. -/
theorem C8_empty_sender_iff_empty_segment (Process : GoString → Outcome) (env : Environ)
    (c : Context) :
    Split (Getenv env (lit "PHONES")) comma ≠ [] ∧
    (env.lookup (lit "PHONES") = none → Getenv env (lit "PHONES") = []) ∧
    (c.form.lookup (lit "From") = none → c.PostForm (lit "From") = []) ∧
    (c.PostForm (lit "From") = [] →
      (authenticated env c = true ↔ HasEmptySegment (Getenv env (lit "PHONES"))) ∧
      ((responses (InboundSMSRequest Process env c).trace = [(200, statusBody)] ∧
          processCalls (InboundSMSRequest Process env c).trace = [c.PostForm (lit "Body")]) ↔
        HasEmptySegment (Getenv env (lit "PHONES"))) ∧
      ((responses (InboundSMSRequest Process env c).trace = [(401, errorBody)] ∧
          processCalls (InboundSMSRequest Process env c).trace = []) ↔
        ¬ HasEmptySegment (Getenv env (lit "PHONES")))) := by
  refine ⟨Split_ne_nil _ _, ?_, ?_, ?_⟩
  · intro h
    simp [Getenv, h]
  · intro h
    simp [Context.PostForm, h]
  · intro h
    have hiff : authenticated env c = true ↔ HasEmptySegment (Getenv env (lit "PHONES")) := by
      rw [authenticated_iff, h]
      exact nil_mem_Split_iff _
    refine ⟨hiff, ?_, ?_⟩
    · constructor
      · rintro ⟨hr, _⟩
        by_contra hn
        have hf : authenticated env c = false := by
          rw [Bool.eq_false_iff]
          exact fun ht => hn (hiff.1 ht)
        rw [(responses_rejected Process env c hf).1] at hr
        simp at hr
      · intro hs
        exact responses_accepted Process env c (hiff.2 hs)
    · constructor
      · rintro ⟨hr, _⟩ hs
        rw [(responses_accepted Process env c (hiff.2 hs)).1] at hr
        simp at hr
      · intro hn
        have hf : authenticated env c = false := by
          rw [Bool.eq_false_iff]
          exact fun ht => hn (hiff.1 ht)
        exact responses_rejected Process env c hf

/-- C8 at a request without a From field and PHONES="+15551234567," (a
trailing comma): the sender reads as empty, PHONES has an empty segment, and the
handler emits the 200 response and calls Process("hi"). -/
theorem C8_witness :
    Context.PostForm { form := [(lit "Body", lit "hi")] } (lit "From") = [] ∧
      HasEmptySegment (Getenv (phonesEnv "+15551234567,") (lit "PHONES")) ∧
      (responses (InboundSMSRequest (fun _ => Outcome.returned) (phonesEnv "+15551234567,")
          { form := [(lit "Body", lit "hi")] }).trace = [(200, statusBody)] ∧
        processCalls (InboundSMSRequest (fun _ => Outcome.returned)
          (phonesEnv "+15551234567,")
          { form := [(lit "Body", lit "hi")] }).trace = [lit "hi"]) :=
  have hs : HasEmptySegment (Getenv (phonesEnv "+15551234567,") (lit "PHONES")) :=
    Or.inr (Or.inr (Or.inl (by decide)))
  ⟨by decide, hs, ((C8_empty_sender_iff_empty_segment (fun _ => Outcome.returned)
    (phonesEnv "+15551234567,")
    { form := [(lit "Body", lit "hi")] }).2.2.2 (by decide)).2.1.2 hs⟩

/-- C9: no entry of the list split from PHONES contains a comma, so a sender
that contains a comma is never authorized, whatever PHONES holds: the response
is the 401 one and Process is not called. -/
theorem C9_sender_with_comma_rejected (Process : GoString → Outcome) (env : Environ)
    (c : Context) (h : comma ∈ c.PostForm (lit "From")) :
    (∀ e ∈ Split (Getenv env (lit "PHONES")) comma, comma ∉ e) ∧
      authenticated env c = false ∧
      responses (InboundSMSRequest Process env c).trace = [(401, errorBody)] ∧
      processCalls (InboundSMSRequest Process env c).trace = [] := by
  have hf : authenticated env c = false := by
    rw [authenticated_eq_false_iff]
    intro hm
    exact Split_no_sep _ _ _ hm h
  exact ⟨Split_no_sep _ _, hf, responses_rejected Process env c hf⟩

/-- C9 at the sender "+15551234567,+15557654321", which is the whole value of
PHONES. -/
theorem C9_witness :
    comma ∈ (smsRequest "+15551234567,+15557654321" "hi").PostForm (lit "From") ∧
      responses (InboundSMSRequest (fun _ => Outcome.returned)
        (phonesEnv "+15551234567,+15557654321")
        (smsRequest "+15551234567,+15557654321" "hi")).trace = [(401, errorBody)] :=
  ⟨by decide, (C9_sender_with_comma_rejected (fun _ => Outcome.returned)
    (phonesEnv "+15551234567,+15557654321")
    (smsRequest "+15551234567,+15557654321" "hi") (by decide)).2.2.1⟩

/-- C10: every run emits exactly one response; either it is the 401 one and
there is no Process call, or it is the 200 one and there is exactly one Process
call, which is the last call of the run (nothing, so no response, follows
it). -/
theorem C10_one_response_and_matching_Process_count (Process : GoString → Outcome)
    (env : Environ) (c : Context) :
    (responses (InboundSMSRequest Process env c).trace).length = 1 ∧
    ((responses (InboundSMSRequest Process env c).trace = [(401, errorBody)] ∧
        (processCalls (InboundSMSRequest Process env c).trace).length = 0) ∨
      (responses (InboundSMSRequest Process env c).trace = [(200, statusBody)] ∧
        (processCalls (InboundSMSRequest Process env c).trace).length = 1)) ∧
    (∀ (pre post : List Event) (body : GoString),
      (InboundSMSRequest Process env c).trace = pre ++ Event.Process body :: post →
        post = []) := by
  cases hauth : authenticated env c with
  | false =>
    obtain ⟨hr, hp⟩ := responses_rejected Process env c hauth
    refine ⟨by rw [hr]; rfl, Or.inl ⟨hr, by rw [hp]; rfl⟩, ?_⟩
    intro pre post body h
    rw [h] at hp
    exact absurd hp (processCalls_append_cons_ne_nil pre post body)
  | true =>
    obtain ⟨hr, hp⟩ := responses_accepted Process env c hauth
    refine ⟨by rw [hr]; rfl, Or.inr ⟨hr, by rw [hp]; rfl⟩, ?_⟩
    intro pre post body h
    rw [InboundSMSRequest_accepted Process env c hauth] at h
    have h2 : (decisionReads env ++ [Event.JSON 200 statusBody, Event.PostForm (lit "Body")]) ++
        Event.Process (c.PostForm (lit "Body")) :: [] = pre ++ Event.Process body :: post := by
      rw [← h]; simp
    obtain ⟨_, _, h3⟩ := append_cons_unique (fun e => isProcess e = true)
      (decisionReads env ++ [Event.JSON 200 statusBody, Event.PostForm (lit "Body")]) []
      (Event.Process (c.PostForm (lit "Body"))) (Event.Process body)
      (by
        intro e he
        rcases List.mem_append.1 he with he | he
        · exact reads_not_process env e he
        · simp only [List.mem_cons, List.mem_singleton, List.not_mem_nil, or_false] at he
          rcases he with rfl | rfl <;> simp [isProcess])
      (by simp) rfl pre post h2
    exact h3

/-- C10 at the scenario request From="+15551234567", Body="hello": one
response, and the Process call is the last call of the trace. -/
theorem C10_witness :
    (InboundSMSRequest (fun _ => Outcome.returned) (phonesEnv "+15551234567,+15557654321")
        (smsRequest "+15551234567" "hello")).trace =
      [Event.Getenv (lit "PHONES"), Event.PostForm (lit "From"), Event.PostForm (lit "From"),
        Event.JSON 200 statusBody, Event.PostForm (lit "Body")] ++
        Event.Process (lit "hello") :: [] ∧
    (responses (InboundSMSRequest (fun _ => Outcome.returned)
        (phonesEnv "+15551234567,+15557654321")
        (smsRequest "+15551234567" "hello")).trace).length = 1 ∧
    ([] : List Event) = [] :=
  have h := C10_one_response_and_matching_Process_count (fun _ => Outcome.returned)
    (phonesEnv "+15551234567,+15557654321") (smsRequest "+15551234567" "hello")
  ⟨by decide, h.1, h.2.2
    [Event.Getenv (lit "PHONES"), Event.PostForm (lit "From"), Event.PostForm (lit "From"),
      Event.JSON 200 statusBody, Event.PostForm (lit "Body")]
    [] (lit "hello") (by decide)⟩

end Handlers
